import Mathlib

/-!
Verification of the password-protection / encryption detection pipeline of the
sertaac/encryptionproject repository (a shallow embedding of the Python source).

Modelling conventions:
* bytes are `Fin 256` (Python reads files in binary mode);
* Python floats are modelled as exact rationals (`ℚ`) for the fixed scoring
  constants and as real numbers (`ℝ`) for the transcendental statistics
  (Shannon entropy via `Real.logb`, skewness via `Real.sqrt`);
* the filesystem and every external collaborator (msoffcrypto, PyPDF2,
  pikepdf, zipfile, rarfile, py7zr, sqlite3, pypff, extract_msg, olefile,
  magika) are explicit environment values: each per-path environment field
  records the observable outcome of the corresponding library call
  (a result, or which exception class was raised, and the exception message
  where the code inspects it);
* Python exceptions escaping a handler are `Except String`; the `try/except`
  in `PasswordProtectionDetector.analyze_file` is an explicit `match`;
* wall-clock durations (`time.perf_counter` differences) are oracle inputs.
-/

/-- A byte as read from a binary file. -/
abbrev Byte := Fin 256

/-- The (password_protected, encrypted, confidence) triple every handler's
`is_encrypted` returns (file_handlers.py). Confidence is an exact rational
standing for the Python float. -/
structure Verdict where
  password_protected : Bool
  encrypted : Bool
  confidence : ℚ
deriving DecidableEq, Repr

/-- The per-file result dictionary built by
`PasswordProtectionDetector.analyze_file` (detector.py). -/
structure DetectionResult where
  file : String
  password_protected : Bool
  encrypted : Bool
  confidence : ℚ
  duration : ℚ
deriving DecidableEq, Repr

/-- The (file, password_protected, encrypted, confidence) projection of a
result, i.e. every field except `duration`. -/
def DetectionResult.core (r : DetectionResult) : String × Bool × Bool × ℚ :=
  (r.file, r.password_protected, r.encrypted, r.confidence)

/-- Decides whether the character list `needle` occurs contiguously inside
`hay`; models the Python `needle in hay` substring test. -/
def containsSub (needle : List Char) : List Char → Bool
  | [] => needle.isEmpty
  | c :: t => List.isPrefixOf needle (c :: t) || containsSub needle t

/-- Python `needle in hay` on strings. -/
def hasSubstr (needle hay : String) : Bool :=
  containsSub needle.toList hay.toList

/-- ASCII lowercasing by structural recursion over the characters,
modelling Python `str.lower()` on the ASCII identifiers the code compares
against. -/
def toLowerStr (s : String) : String :=
  String.mk (s.toList.map Char.toLower)

/-- Models Python `'encrypted' in str(e).lower()`, used on exception
messages by several handlers. -/
def mentionsEncrypted (msg : String) : Bool :=
  hasSubstr "encrypted" (toLowerStr msg)

/-- The characters of a basename that follow its last dot, when the basename
contains a dot at all. -/
def afterLastDot : List Char → Option (List Char)
  | [] => none
  | c :: rest =>
    match afterLastDot rest with
    | some s => some s
    | none => if c = '.' then some rest else none

/-- Extension of a basename in the sense of `os.path.splitext`: the suffix
starting at the last dot, except that a run of leading dots never starts an
extension (so ".bashrc" has no extension). -/
def extOfBasename (cs : List Char) : List Char :=
  let stripped := cs.dropWhile (fun c => c = '.')
  match afterLastDot stripped with
  | some s => '.' :: s
  | none => []

/-- The basename of a POSIX path: everything after the last slash. -/
def basenameOf (path : String) : String :=
  String.mk ((path.toList.reverse.takeWhile (fun c => c != '/')).reverse)

/-- Models `os.path.splitext(file_path)[1].lower()` as used in entropy.py
and type_utils.py. -/
def extOf (path : String) : String :=
  toLowerStr (String.mk (extOfBasename (basenameOf path).toList))

/-- The immutable filesystem a scan runs against. `isFile` and `size` model
`os.path.isfile` / `os.path.getsize`; `readable` says whether `open(path,
'rb')` succeeds; `content` gives the bytes of the file when readable. -/
structure FileSys where
  isFile : String → Bool
  size : String → ℕ
  readable : String → Bool
  content : String → List Byte

/-- High-entropy (likely encrypted) file extensions, entropy.py `ENC_EXT`
(identical in both versions of entropy.py). -/
def ENC_EXT : List String := [ ".gpg", ".enc", ".aes", ".crypt", ".pgp" ]

/-- Formats that naturally exhibit high entropy, `HIGH_ENTROPY_FORMATS` in
the top-level src/entropy.py (four extensions). -/
def HIGH_ENTROPY_FORMATS : List String := [ ".docx", ".xlsx", ".pptx", ".ods" ]

/-- `HIGH_ENTROPY_FORMATS` in
EncryptionProjectUpdated/password_detector_package/entropy.py
(nine extensions). -/
def HIGH_ENTROPY_FORMATS_updated : List String :=
  [ ".docx", ".xlsx", ".pptx", ".ods", ".odt", ".odp", ".odg", ".odf", ".odm" ]

/-- Python `data.count(0x00) / len(data)` from entropy.py. -/
def nullByteFraction (data : List Byte) : ℚ :=
  (data.count 0 : ℚ) / (data.length : ℚ)

/-- Python `sum(32 <= b <= 126 for b in data) / len(data)` from entropy.py. -/
def asciiFraction (data : List Byte) : ℚ :=
  (data.countP (fun b => 32 ≤ b.val && b.val ≤ 126) : ℚ) / (data.length : ℚ)

/-- Python `sum(b > 127 for b in data) / len(data)` from entropy.py. -/
def highByteFraction (data : List Byte) : ℚ :=
  (data.countP (fun b => 127 < b.val) : ℚ) / (data.length : ℚ)

/-- Shannon entropy of the byte sample, entropy.py:
`-sum((c / len(data)) * math.log2(c / len(data)) for c in counts.values())`
where `counts = Counter(data)`; the sum ranges over the distinct byte values
occurring in `data`. -/
noncomputable def shannonEntropy (data : List Byte) : ℝ :=
  -∑ v ∈ data.toFinset,
    ((data.count v : ℝ) / (data.length : ℝ)) *
      Real.logb 2 ((data.count v : ℝ) / (data.length : ℝ))

/-- entropy.py `mean = sum(freqs) / 256` where
`freqs = [counts.get(i, 0) for i in range(256)]`. -/
noncomputable def freqMean (data : List Byte) : ℝ :=
  (∑ i : Fin 256, (data.count i : ℝ)) / 256

/-- entropy.py `var = sum((f - mean) ** 2 for f in freqs) / 256`. -/
noncomputable def freqVar (data : List Byte) : ℝ :=
  (∑ i : Fin 256, ((data.count i : ℝ) - freqMean data) ^ 2) / 256

/-- entropy.py
`skew = sum(((f - mean) / (math.sqrt(var) + 1e-8)) ** 3 for f in freqs) / 256`. -/
noncomputable def freqSkew (data : List Byte) : ℝ :=
  (∑ i : Fin 256,
    (((data.count i : ℝ) - freqMean data) /
      (Real.sqrt (freqVar data) + 1 / 100000000)) ^ 3) / 256

/-- The format-specific score adjustment of entropy.py:
`if ext in HIGH_ENTROPY_FORMATS and entropy > 7.2: score -= 0.2`,
parameterised by the `HIGH_ENTROPY_FORMATS` set of the respective version. -/
noncomputable def highEntropyAdjust (hef : List String) (ext : String) (entropy : ℝ) : ℚ :=
  if ext ∈ hef ∧ entropy > 72 / 10 then -(2 / 10) else 0

open Classical in
/-- The additive scoring logic of `EntropyAnalyzer.analyze` (entropy.py),
as a function of the sampled bytes and the lowercased extension,
parameterised by the `HIGH_ENTROPY_FORMATS` set: the entropy bonus
(`if/elif` chain over 7.8 / 7.5 / 7.2), the uniform-skew bonus, the three
byte-distribution bonuses, the high-entropy-format deduction and the
known-encrypted-extension bonus, in source order. -/
noncomputable def entropyScore (hef : List String) (data : List Byte)
    (ext : String) : ℚ :=
  (if shannonEntropy data > 78 / 10 then 7 / 10
    else if shannonEntropy data > 75 / 10 then 5 / 10
    else if shannonEntropy data > 72 / 10 then 3 / 10 else 0)
  + (if |freqSkew data| < 3 / 10 then 2 / 10 else 0)
  + (if nullByteFraction data < 1 / 100 then 1 / 10 else 0)
  + (if asciiFraction data < 4 / 10 then 1 / 10 else 0)
  + (if highByteFraction data > 3 / 10 then 1 / 10 else 0)
  + highEntropyAdjust hef ext (shannonEntropy data)
  + (if ext ∈ ENC_EXT then 2 / 10 else 0)

open Classical in
/-- `EntropyAnalyzer.analyze(file_path, sample_size)` from entropy.py,
parameterised by the `HIGH_ENTROPY_FORMATS` set (the only difference
between the two versions of entropy.py in the repository; the added
`if c > 0` filter of the updated version is semantically vacuous because
`Counter` values are positive). An unreadable file or empty sample is
(False, 0.0); otherwise `is_encrypted = score > 0.7` and
`confidence = min(1.0, max(0.0, score))`. -/
noncomputable def EntropyAnalyzer.analyzeCore (hef : List String) (fs : FileSys)
    (file_path : String) (sample_size : ℕ) : Bool × ℚ :=
  if fs.readable file_path = false then (false, 0)
  else if (fs.content file_path).take sample_size = [] then (false, 0)
  else
    (decide (entropyScore hef ((fs.content file_path).take sample_size)
        (extOf file_path) > 7 / 10),
      min 1 (max 0 (entropyScore hef ((fs.content file_path).take sample_size)
        (extOf file_path))))

/-- `EntropyAnalyzer.analyze` of the top-level src/entropy.py. -/
noncomputable def EntropyAnalyzer.analyze (fs : FileSys) (file_path : String)
    (sample_size : ℕ) : Bool × ℚ :=
  EntropyAnalyzer.analyzeCore HIGH_ENTROPY_FORMATS fs file_path sample_size

/-- `EntropyAnalyzer.analyze` of
EncryptionProjectUpdated/password_detector_package/entropy.py. -/
noncomputable def EntropyAnalyzer.analyzeUpdated (fs : FileSys) (file_path : String)
    (sample_size : ℕ) : Bool × ℚ :=
  EntropyAnalyzer.analyzeCore HIGH_ENTROPY_FORMATS_updated fs file_path sample_size

/-- The extension table of `FileTypeDetector.__init__` (type_utils.py). -/
def extension_map : List (String × String) :=
  [ (".docx", "office_openxml"), (".xlsx", "office_openxml"),
    (".pptx", "office_openxml"),
    (".doc", "office_legacy"), (".xls", "office_legacy"),
    (".ppt", "office_legacy"),
    (".pdf", "pdf"), (".zip", "zip"), (".rar", "rar"), (".7z", "7z"),
    (".sqlite", "sqlite"), (".db", "sqlite"),
    (".pst", "pst"), (".msg", "msg"),
    (".ods", "libre_office"), (".odt", "libre_office"),
    (".odp", "libre_office") ]

/-- The MIME table of `MagikaDetector.detect` (magika_detector.py). -/
def mime_map : List (String × String) :=
  [ ("application/pdf", "pdf"),
    ("application/vnd.openxmlformats-officedocument.wordprocessingml.document",
      "office_openxml"),
    ("application/vnd.ms-excel", "office_legacy"),
    ("application/vnd.openxmlformats-officedocument.spreadsheetml.sheet",
      "office_openxml"),
    ("application/zip", "zip"),
    ("application/x-rar", "rar"),
    ("application/x-7z-compressed", "7z"),
    ("application/vnd.sqlite3", "sqlite"),
    ("application/vnd.ms-outlook", "msg"),
    ("application/octet-stream", "unknown") ]

/-- `MagikaDetector.detect` (magika_detector.py): `classify` is the external
Magika model, returning the reported MIME type or `none` when
`identify_path` raises; unknown MIME types map to "unknown". -/
def MagikaDetector.detect (classify : String → Option String) (file_path : String) :
    String :=
  match classify file_path with
  | none => "unknown"
  | some mime => (mime_map.lookup mime).getD "unknown"

/-- `FileTypeDetector.detect` (type_utils.py): lowercase-extension lookup
first, Magika fallback only when the extension is unknown. -/
def FileTypeDetector.detect (classify : String → Option String) (file_path : String) :
    String :=
  let ext := extOf file_path
  let file_type := (extension_map.lookup ext).getD "unknown"
  if file_type = "unknown" then MagikaDetector.detect classify file_path
  else file_type

/-- What the msoffcrypto probe of the top-level
`OfficeOpenXMLHandler.is_encrypted` (src/file_handlers.py) observes:
`MSOFFCRYPTO_AVAILABLE`, and the result of `OfficeFile(f).is_encrypted()`
(`none` models any exception raised while opening or probing the file). -/
structure MsoEnv where
  available : Bool
  probe : Option Bool

/-- `OfficeOpenXMLHandler.is_encrypted` from src/file_handlers.py
(`OfficeLegacyHandler` inherits this method unchanged). -/
def OfficeOpenXMLHandler.is_encrypted (env : MsoEnv) : Verdict :=
  if env.available = false then ⟨false, false, 0⟩
  else
    match env.probe with
    | none => ⟨false, false, 0⟩
    | some is_protected =>
      ⟨is_protected, false, if is_protected then 1 else 0⟩

/-- Outcome of the PyPDF2 probe in `PDFHandler.is_encrypted`:
`reader.is_encrypted` succeeded, or `PdfReadError`, or another exception. -/
inductive PyPdf2Outcome where
  | ok (is_encrypted : Bool)
  | readError
  | otherExc
deriving DecidableEq

/-- Outcome of the pikepdf probe in `PDFHandler.is_encrypted`:
`pdf.is_encrypted` succeeded, or `PasswordError`, or another exception. -/
inductive PikepdfOutcome where
  | ok (is_encrypted : Bool)
  | passwordError
  | otherExc
deriving DecidableEq

/-- Environment of `PDFHandler.is_encrypted` (src/file_handlers.py). -/
structure PdfEnv where
  pdf2Available : Bool
  pypdf2 : PyPdf2Outcome
  pikepdfAvailable : Bool
  pikepdf : PikepdfOutcome

/-- The pikepdf fallback of `PDFHandler.is_encrypted` together with the
final `return False, False, 0.0`: an encrypted verdict or `PasswordError`
gives (true, true, 1.0); everything else falls to no-signal. -/
def PDFHandler.pikepdfStep (env : PdfEnv) : Verdict :=
  if env.pikepdfAvailable then
    match env.pikepdf with
    | .ok true => ⟨true, true, 1⟩
    | .ok false => ⟨false, false, 0⟩
    | .passwordError => ⟨true, true, 1⟩
    | .otherExc => ⟨false, false, 0⟩
  else ⟨false, false, 0⟩

/-- `PDFHandler.is_encrypted` from src/file_handlers.py: PyPDF2 first
(an unencrypted or `PdfReadError` outcome falls through to the pikepdf
step; any other exception is a hard no-signal return). -/
def PDFHandler.is_encrypted (env : PdfEnv) : Verdict :=
  if env.pdf2Available then
    match env.pypdf2 with
    | .ok true => ⟨true, true, 1⟩
    | .ok false => PDFHandler.pikepdfStep env
    | .readError => PDFHandler.pikepdfStep env
    | .otherExc => ⟨false, false, 0⟩
  else PDFHandler.pikepdfStep env

/-- Outcome of `zipfile.ZipFile(file_path)` + `zf.infolist()` in
`ZIPHandler.is_encrypted`: the list of per-entry `flag_bits`, or
`zipfile.BadZipFile`, or another exception. -/
inductive ZipOpenOutcome where
  | ok (flagBits : List ℕ)
  | badZip
  | otherExc
deriving DecidableEq

/-- Outcome of the bad-zip fallback probe (`zf.open(first_file)` and
`f.read(1)`): success, a `RuntimeError` with the given message, or any
other exception (including `IndexError` on an empty `infolist()`). -/
inductive ZipReadOutcome where
  | ok
  | runtimeError (msg : String)
  | otherExc
deriving DecidableEq

/-- Environment of `ZIPHandler.is_encrypted` (src/file_handlers.py). -/
structure ZipEnv where
  openResult : ZipOpenOutcome
  fallbackRead : ZipReadOutcome

/-- `ZIPHandler.is_encrypted` from src/file_handlers.py: any entry with the
encryption bit (`flag_bits & 0x1`) set gives (true, true, 1.0); a cleanly
opened archive with no flagged entry gives (false, false, 1.0); on
`BadZipFile` a read probe looks for a `RuntimeError` mentioning
"encrypted". -/
def ZIPHandler.is_encrypted (env : ZipEnv) : Verdict :=
  match env.openResult with
  | .ok flagBits =>
    if flagBits.any (fun f => f % 2 = 1) then ⟨true, true, 1⟩
    else ⟨false, false, 1⟩
  | .badZip =>
    match env.fallbackRead with
    | .runtimeError msg =>
      if mentionsEncrypted msg then ⟨true, true, 1⟩ else ⟨false, false, 0⟩
    | _ => ⟨false, false, 0⟩
  | .otherExc => ⟨false, false, 0⟩

/-- Environment of `RARHandler.is_encrypted` / `SevenZipHandler.is_encrypted`:
library availability and `needs_password()` (`none` models an exception). -/
structure ArchiveEnv where
  available : Bool
  needsPassword : Option Bool

/-- `RARHandler.is_encrypted` from src/file_handlers.py. -/
def RARHandler.is_encrypted (env : ArchiveEnv) : Verdict :=
  if env.available = false then ⟨false, false, 0⟩
  else
    match env.needsPassword with
    | none => ⟨false, false, 0⟩
    | some np => ⟨np, np, 1⟩

/-- `SevenZipHandler.is_encrypted` from src/file_handlers.py (same shape as
the RAR handler, via py7zr). -/
def SevenZipHandler.is_encrypted (env : ArchiveEnv) : Verdict :=
  if env.available = false then ⟨false, false, 0⟩
  else
    match env.needsPassword with
    | none => ⟨false, false, 0⟩
    | some np => ⟨np, np, 1⟩

/-- Outcome of the sqlite3 catalog read in `SQLiteHandler.is_encrypted`:
clean read, `sqlite3.DatabaseError` with the given message, or another
exception. -/
inductive SqliteOutcome where
  | ok
  | databaseError (msg : String)
  | otherExc
deriving DecidableEq

/-- `SQLiteHandler.is_encrypted` from src/file_handlers.py. -/
def SQLiteHandler.is_encrypted (env : SqliteOutcome) : Verdict :=
  match env with
  | .ok => ⟨false, false, 1⟩
  | .databaseError msg =>
    if mentionsEncrypted msg || hasSubstr "not a database" (toLowerStr msg) then
      ⟨true, true, 1⟩
    else ⟨false, false, 0⟩
  | .otherExc => ⟨false, false, 0⟩

/-- Outcome of `pypff.file().open(file_path)` in `PSTHandler.is_encrypted`:
success, `pypff.Error` with the given message, or another exception. -/
inductive PffOutcome where
  | ok
  | pffError (msg : String)
  | otherExc
deriving DecidableEq

/-- Environment of `PSTHandler.is_encrypted` (src/file_handlers.py). -/
structure PstEnv where
  available : Bool
  openResult : PffOutcome

/-- `PSTHandler.is_encrypted` from src/file_handlers.py. -/
def PSTHandler.is_encrypted (env : PstEnv) : Verdict :=
  if env.available = false then ⟨false, false, 0⟩
  else
    match env.openResult with
    | .ok => ⟨false, false, 1⟩
    | .pffError msg =>
      if hasSubstr "password" (toLowerStr msg) || mentionsEncrypted msg then
        ⟨true, true, 1⟩
      else ⟨false, false, 0⟩
    | .otherExc => ⟨false, false, 0⟩

/-- Environment of `MSGHandler.is_encrypted` (src/file_handlers.py):
the extract_msg probe (`none` = `Message(file_path)` succeeded, `some msg`
= it raised with message `msg`) and the olefile fallback (`none` = the
`OleFileIO` calls raised, `some b` = `ole.exists('EncryptedSummary')`
returned `b`). -/
structure MsgEnv where
  extractAvailable : Bool
  extractError : Option String
  oleAvailable : Bool
  oleEncryptedSummary : Option Bool

/-- The olefile fallback of `MSGHandler.is_encrypted` together with the
final `return False, False, 0.0`. -/
def MSGHandler.olefileStep (env : MsgEnv) : Verdict :=
  if env.oleAvailable then
    match env.oleEncryptedSummary with
    | some true => ⟨true, true, 9 / 10⟩
    | some false => ⟨false, false, 0⟩
    | none => ⟨false, false, 0⟩
  else ⟨false, false, 0⟩

/-- `MSGHandler.is_encrypted` from src/file_handlers.py: extract_msg first
(an exception whose message does not mention "encrypted" falls through to
the olefile step). -/
def MSGHandler.is_encrypted (env : MsgEnv) : Verdict :=
  if env.extractAvailable then
    match env.extractError with
    | none => ⟨false, false, 1⟩
    | some msg =>
      if mentionsEncrypted msg then ⟨true, true, 1⟩ else MSGHandler.olefileStep env
  else MSGHandler.olefileStep env

/-- Outcome of `zf.read('content.xml')` in
`LibreOfficeHandler.is_encrypted`: success, `RuntimeError` with the given
message, or another exception. -/
inductive LoContentOutcome where
  | ok
  | runtimeError (msg : String)
  | otherExc
deriving DecidableEq

/-- Environment of `LibreOfficeHandler.is_encrypted`
(EncryptionProject/password_detector_package/file_handlers.py; the handler
is imported but absent from the top-level src/file_handlers.py):
the archive namelist (`none` = `ZipFile` raised), the manifest content
(`none` = reading META-INF/manifest.xml raised), and the content.xml read
outcome. -/
structure LoEnv where
  names : Option (List String)
  manifest : Option String
  contentRead : LoContentOutcome

/-- The content.xml accessibility probe of `LibreOfficeHandler.is_encrypted`
(EncryptionProject/password_detector_package/file_handlers.py): a
`RuntimeError` mentioning "encrypted" while reading content.xml means
(true, true, 1.0); a readable (or absent) content.xml means
(false, false, 1.0); a non-matching `RuntimeError` falls out of the inner
`try` to the final no-signal return, any other exception reaches the outer
`except` (also no-signal). -/
def LibreOfficeHandler.contentStep (env : LoEnv) (ns : List String) : Verdict :=
  if "content.xml" ∈ ns then
    match env.contentRead with
    | .ok => ⟨false, false, 1⟩
    | .runtimeError msg =>
      if mentionsEncrypted msg then ⟨true, true, 1⟩ else ⟨false, false, 0⟩
    | .otherExc => ⟨false, false, 0⟩
  else ⟨false, false, 1⟩

/-- The manifest inspection of `LibreOfficeHandler.is_encrypted`: a raised
manifest read reaches the outer `except` (no-signal); an absent encryption
marker falls through to the content.xml step. -/
def LibreOfficeHandler.is_encrypted (env : LoEnv) : Verdict :=
  match env.names with
  | none => ⟨false, false, 0⟩
  | some ns =>
    if "META-INF/manifest.xml" ∈ ns then
      match env.manifest with
      | none => ⟨false, false, 0⟩
      | some m =>
        if hasSubstr "manifest:encryption-data" m then ⟨true, true, 1⟩
        else LibreOfficeHandler.contentStep env ns
    else LibreOfficeHandler.contentStep env ns

/-- Outcome of `office_file.load_key(password='')` in the v2withAsync
`OfficeOpenXMLHandler`: success, an `InvalidKeyError` / `DecryptionError`,
or any other exception (which escapes to the outer handler). -/
inductive LoadKeyOutcome where
  | ok
  | invalidKey
  | otherExc
deriving DecidableEq

/-- Environment of the v2withAsync/file_handlers.py `OfficeOpenXMLHandler`
blocking body: `MSOFFCRYPTO_AVAILABLE`, the `is_encrypted()` probe
(`none` models an exception while opening or probing), the empty-password
`load_key` outcome, and the fallback ZIP inspection: the archive namelist
(`none` = `ZipFile` raised) plus the docProps/core.xml content (`none` =
reading it raised). -/
structure OoxmlV2Env where
  available : Bool
  probe : Option Bool
  loadKey : LoadKeyOutcome
  zipNames : Option (List String)
  core : Option String

/-- The fallback ZIP structure check inside the `except` branch of the
v2withAsync `OfficeOpenXMLHandler.is_encrypted`: an "EncryptedPackage"
member means (true, true, 1.0); a "DocumentProtection" marker inside
docProps/core.xml means (true, false, 0.9); everything else falls through
to (false, false, 0.0). -/
def OfficeOpenXMLHandlerV2.fallback (env : OoxmlV2Env) : Verdict :=
  match env.zipNames with
  | none => ⟨false, false, 0⟩
  | some ns =>
    if "EncryptedPackage" ∈ ns then ⟨true, true, 1⟩
    else if "docProps/core.xml" ∈ ns then
      match env.core with
      | none => ⟨false, false, 0⟩
      | some core_data =>
        if hasSubstr "DocumentProtection" core_data then ⟨true, false, 9 / 10⟩
        else ⟨false, false, 0⟩
    else ⟨false, false, 0⟩

/-- `OfficeOpenXMLHandler.is_encrypted` from src/v2withAsync/file_handlers.py
(identical in EncryptionProject/password_detector_package/file_handlers.py),
blocking body: not-encrypted gives (false, false, 1.0); encrypted and
decryptable with the empty password gives (false, true, 0.8); encrypted and
not decryptable gives (true, true, 1.0); any escaping exception triggers
the ZIP fallback. -/
def OfficeOpenXMLHandlerV2.is_encrypted (env : OoxmlV2Env) : Verdict :=
  if env.available = false then ⟨false, false, 0⟩
  else
    match env.probe with
    | none => OfficeOpenXMLHandlerV2.fallback env
    | some false => ⟨false, false, 1⟩
    | some true =>
      match env.loadKey with
      | .ok => ⟨false, true, 8 / 10⟩
      | .invalidKey => ⟨true, true, 1⟩
      | .otherExc => OfficeOpenXMLHandlerV2.fallback env

/-- A complete immutable execution environment for one scan: the
filesystem, the Magika collaborator, the per-path observable behaviour of
every format-parsing collaborator, and the per-path unexpected fault
(`some msg`: the handler dispatch step itself raises past the handler,
reaching the `except` in `PasswordProtectionDetector.analyze_file`). -/
structure World where
  fs : FileSys
  magika : String → Option String
  mso : String → MsoEnv
  msoLegacy : String → MsoEnv
  pdf : String → PdfEnv
  zip : String → ZipEnv
  rar : String → ArchiveEnv
  sevenZip : String → ArchiveEnv
  sqlite : String → SqliteOutcome
  pst : String → PstEnv
  msg : String → MsgEnv
  lo : String → LoEnv
  crash : String → Option String

/-- The handler table lookup of `PasswordProtectionDetector.__init__`
(detector.py) followed by the `handler.is_encrypted(file_path)` call:
`none` when the resolved type has no handler. -/
def handlerVerdict (w : World) (file_type : String) (file_path : String) :
    Option Verdict :=
  match file_type with
  | "office_openxml" => some (OfficeOpenXMLHandler.is_encrypted (w.mso file_path))
  | "office_legacy" => some (OfficeOpenXMLHandler.is_encrypted (w.msoLegacy file_path))
  | "pdf" => some (PDFHandler.is_encrypted (w.pdf file_path))
  | "zip" => some (ZIPHandler.is_encrypted (w.zip file_path))
  | "rar" => some (RARHandler.is_encrypted (w.rar file_path))
  | "7z" => some (SevenZipHandler.is_encrypted (w.sevenZip file_path))
  | "sqlite" => some (SQLiteHandler.is_encrypted (w.sqlite file_path))
  | "pst" => some (PSTHandler.is_encrypted (w.pst file_path))
  | "msg" => some (MSGHandler.is_encrypted (w.msg file_path))
  | "libre_office" => some (LibreOfficeHandler.is_encrypted (w.lo file_path))
  | _ => none

/-- The guarded dispatch step of `PasswordProtectionDetector.analyze_file`
(detector.py, the body of the `try`): resolve the type, run the matching
handler if any (keeping the initial `(False, False, 0.0)` otherwise), or
raise (`Except.error`) when an unexpected fault escapes the handler. -/
def detectorStep (w : World) (file_path : String) : Except String Verdict :=
  match w.crash file_path with
  | some msg => .error msg
  | none =>
    .ok ((handlerVerdict w (FileTypeDetector.detect w.magika file_path) file_path).getD
      ⟨false, false, 0⟩)

/-- The `try/except` around the dispatch step in
`PasswordProtectionDetector.analyze_file`: on an exception the tuple
assignment never happened, so `password_protected` and `encrypted` keep
their initial `False` values and `confidence` is reset to 0.0. -/
def caughtVerdict (dispatch : String → Except String Verdict) (file_path : String) :
    Verdict :=
  match dispatch file_path with
  | .error _ => ⟨false, false, 0⟩
  | .ok v => v

/-- `PasswordProtectionDetector.analyze_file` (detector.py), parameterised
by the dispatch step `dispatch` (type resolution plus handler) and the
entropy analyzer `entropyOf`, with the measured wall-clock duration `dur`
supplied as an oracle: skip paths that are not regular non-empty files,
otherwise run the guarded dispatch and, when its confidence is below 0.5,
arbitrate against the entropy fallback. -/
def DetectionPipeline.analyze_file (fs : FileSys)
    (dispatch : String → Except String Verdict)
    (entropyOf : String → Bool × ℚ) (dur : ℚ) (file_path : String) :
    DetectionResult :=
  if fs.isFile file_path = false ∨ fs.size file_path = 0 then
    { file := file_path, password_protected := false, encrypted := false,
      confidence := 0, duration := dur }
  else if (caughtVerdict dispatch file_path).confidence < 5 / 10 then
    if (entropyOf file_path).2 > (caughtVerdict dispatch file_path).confidence then
      { file := file_path,
        password_protected := (caughtVerdict dispatch file_path).password_protected,
        encrypted := (entropyOf file_path).1,
        confidence := (entropyOf file_path).2, duration := dur }
    else
      { file := file_path,
        password_protected := (caughtVerdict dispatch file_path).password_protected,
        encrypted := (caughtVerdict dispatch file_path).encrypted,
        confidence := (caughtVerdict dispatch file_path).confidence, duration := dur }
  else
    { file := file_path,
      password_protected := (caughtVerdict dispatch file_path).password_protected,
      encrypted := (caughtVerdict dispatch file_path).encrypted,
      confidence := (caughtVerdict dispatch file_path).confidence, duration := dur }

/-- `PasswordProtectionDetector.analyze_file` with its concrete
collaborators from detector.py: the dispatch step over the world's handlers
and `EntropyAnalyzer.analyze` (sample_size defaults to 8192). -/
noncomputable def PasswordProtectionDetector.analyze_file (w : World) (dur : ℚ)
    (file_path : String) : DetectionResult :=
  DetectionPipeline.analyze_file w.fs (detectorStep w)
    (fun p => EntropyAnalyzer.analyze w.fs p 8192) dur file_path

/-- `PasswordProtectionDetector.scan_directory` (detector.py): `os.walk` is
modelled by the traversal-ordered list `files` of file paths under the
directory; each file is analyzed in order, with a per-file duration
oracle. -/
noncomputable def PasswordProtectionDetector.scan_directory (w : World)
    (durs : String → ℚ) (files : List String) : List DetectionResult :=
  files.map (fun p => PasswordProtectionDetector.analyze_file w (durs p) p)

/-- `SynchronousPasswordProtectionDetector.scan_directory`
(EncryptionProject/password_detector_package/sync_detector.py): walks the
tree and runs the async detector's `analyze_file` to completion one file at
a time via `asyncio.run`, in traversal order. Parameterised like
`DetectionPipeline.analyze_file`; `durs` is the per-file duration oracle of
this sequential execution. -/
def SynchronousPasswordProtectionDetector.scan_directory (fs : FileSys)
    (dispatch : String → Except String Verdict) (entropyOf : String → Bool × ℚ)
    (durs : String → ℚ) (files : List String) : List DetectionResult :=
  files.map (fun p => DetectionPipeline.analyze_file fs dispatch entropyOf (durs p) p)

/-- The concurrent `PasswordProtectionDetector.scan_directory`
(EncryptionProject/password_detector_package/detector.py): one
`analyze_file` task per walked file, scheduled concurrently and collected
with `asyncio.gather`, which returns the results in task-creation order;
every task is a pure function of the immutable world (no shared mutable
state), so only its measured duration (`durs`) depends on the
interleaving. -/
def ConcurrentPasswordProtectionDetector.scan_directory (fs : FileSys)
    (dispatch : String → Except String Verdict) (entropyOf : String → Bool × ℚ)
    (durs : String → ℚ) (files : List String) : List DetectionResult :=
  files.map (fun p => DetectionPipeline.analyze_file fs dispatch entropyOf (durs p) p)

/-- A filesystem with no regular files, for concrete instantiations. -/
def emptyFS : FileSys :=
  ⟨fun _ => false, fun _ => 0, fun _ => false, fun _ => []⟩

/-- A filesystem whose every path is a regular unreadable file of size 1,
for concrete instantiations. -/
def oneFileFS : FileSys :=
  ⟨fun _ => true, fun _ => 1, fun _ => false, fun _ => []⟩

/-- A world over `emptyFS` in which every collaborator is absent or fails,
for concrete instantiations. -/
def emptyWorld : World :=
  ⟨emptyFS, fun _ => none, fun _ => ⟨false, none⟩, fun _ => ⟨false, none⟩,
    fun _ => ⟨false, .otherExc, false, .otherExc⟩, fun _ => ⟨.otherExc, .otherExc⟩,
    fun _ => ⟨false, none⟩, fun _ => ⟨false, none⟩, fun _ => .otherExc,
    fun _ => ⟨false, .otherExc⟩, fun _ => ⟨false, none, false, none⟩,
    fun _ => ⟨none, none, .otherExc⟩, fun _ => none⟩

/-- A world over `oneFileFS` in which the dispatch step of every path
raises, for concrete instantiations. -/
def crashWorld : World :=
  ⟨oneFileFS, fun _ => none, fun _ => ⟨false, none⟩, fun _ => ⟨false, none⟩,
    fun _ => ⟨false, .otherExc, false, .otherExc⟩, fun _ => ⟨.otherExc, .otherExc⟩,
    fun _ => ⟨false, none⟩, fun _ => ⟨false, none⟩, fun _ => .otherExc,
    fun _ => ⟨false, .otherExc⟩, fun _ => ⟨false, none, false, none⟩,
    fun _ => ⟨none, none, .otherExc⟩, fun _ => some "boom"⟩

/-- A world over `oneFileFS` whose every path is a ZIP archive with one
entry whose encryption flag bit is set, for concrete instantiations. -/
def zipWorld : World :=
  ⟨oneFileFS, fun _ => none, fun _ => ⟨false, none⟩, fun _ => ⟨false, none⟩,
    fun _ => ⟨false, .otherExc, false, .otherExc⟩, fun _ => ⟨.ok [ 1 ], .otherExc⟩,
    fun _ => ⟨false, none⟩, fun _ => ⟨false, none⟩, fun _ => .otherExc,
    fun _ => ⟨false, .otherExc⟩, fun _ => ⟨false, none, false, none⟩,
    fun _ => ⟨none, none, .otherExc⟩, fun _ => none⟩

/-- A filesystem whose every path is a readable regular file of 8192
bytes, all equal to 0xFF, for concrete instantiations. -/
def ffFS : FileSys :=
  ⟨fun _ => true, fun _ => 8192, fun _ => true,
    fun _ => List.replicate 8192 (255 : Byte)⟩

/-- The verdict invariant of the spec's data model: confidence lies in
[0, 1], and a zero confidence asserts nothing. -/
def Verdict.WellFormed (v : Verdict) : Prop :=
  0 ≤ v.confidence ∧ v.confidence ≤ 1 ∧
    (v.confidence = 0 → v.password_protected = false ∧ v.encrypted = false)

/-- The same invariant on a full detection result. -/
def DetectionResult.WellFormed (r : DetectionResult) : Prop :=
  0 ≤ r.confidence ∧ r.confidence ≤ 1 ∧
    (r.confidence = 0 → r.password_protected = false ∧ r.encrypted = false)

lemma officeOpenXML_wf (env : MsoEnv) :
    (OfficeOpenXMLHandler.is_encrypted env).WellFormed := by
  unfold OfficeOpenXMLHandler.is_encrypted Verdict.WellFormed
  repeat' split
  all_goals simp_all

lemma pdf_wf (env : PdfEnv) : (PDFHandler.is_encrypted env).WellFormed := by
  unfold PDFHandler.is_encrypted PDFHandler.pikepdfStep Verdict.WellFormed
  repeat' split
  all_goals simp_all

lemma zip_wf (env : ZipEnv) : (ZIPHandler.is_encrypted env).WellFormed := by
  unfold ZIPHandler.is_encrypted Verdict.WellFormed
  repeat' split
  all_goals simp_all

lemma rar_wf (env : ArchiveEnv) : (RARHandler.is_encrypted env).WellFormed := by
  unfold RARHandler.is_encrypted Verdict.WellFormed
  repeat' split
  all_goals simp_all

lemma sevenZip_wf (env : ArchiveEnv) :
    (SevenZipHandler.is_encrypted env).WellFormed := by
  unfold SevenZipHandler.is_encrypted Verdict.WellFormed
  repeat' split
  all_goals simp_all

lemma sqlite_wf (env : SqliteOutcome) :
    (SQLiteHandler.is_encrypted env).WellFormed := by
  unfold SQLiteHandler.is_encrypted Verdict.WellFormed
  repeat' split
  all_goals simp_all

lemma pst_wf (env : PstEnv) : (PSTHandler.is_encrypted env).WellFormed := by
  unfold PSTHandler.is_encrypted Verdict.WellFormed
  repeat' split
  all_goals simp_all

lemma msg_wf (env : MsgEnv) : (MSGHandler.is_encrypted env).WellFormed := by
  unfold MSGHandler.is_encrypted MSGHandler.olefileStep Verdict.WellFormed
  repeat' split
  all_goals norm_num

lemma lo_wf (env : LoEnv) : (LibreOfficeHandler.is_encrypted env).WellFormed := by
  unfold LibreOfficeHandler.is_encrypted LibreOfficeHandler.contentStep Verdict.WellFormed
  repeat' split
  all_goals norm_num

lemma handlerVerdict_wf (w : World) (ft p : String) :
    ∀ v, handlerVerdict w ft p = some v → v.WellFormed := by
  intro v h
  unfold handlerVerdict at h
  split at h
  · rw [Option.some.injEq] at h; subst h; exact officeOpenXML_wf _
  · rw [Option.some.injEq] at h; subst h; exact officeOpenXML_wf _
  · rw [Option.some.injEq] at h; subst h; exact pdf_wf _
  · rw [Option.some.injEq] at h; subst h; exact zip_wf _
  · rw [Option.some.injEq] at h; subst h; exact rar_wf _
  · rw [Option.some.injEq] at h; subst h; exact sevenZip_wf _
  · rw [Option.some.injEq] at h; subst h; exact sqlite_wf _
  · rw [Option.some.injEq] at h; subst h; exact pst_wf _
  · rw [Option.some.injEq] at h; subst h; exact msg_wf _
  · rw [Option.some.injEq] at h; subst h; exact lo_wf _
  · simp at h

lemma detectorStep_wf (w : World) (p : String) :
    ∀ v, detectorStep w p = .ok v → v.WellFormed := by
  intro v h
  unfold detectorStep at h
  split at h
  · exact absurd h (by simp)
  · rw [Except.ok.injEq] at h
    subst h
    cases hh : handlerVerdict w (FileTypeDetector.detect w.magika p) p with
    | none => simp [hh, Verdict.WellFormed]
    | some u => simpa [hh] using handlerVerdict_wf w _ p u hh

lemma caughtVerdict_wf (dispatch : String → Except String Verdict) (p : String)
    (hD : ∀ v, dispatch p = .ok v → v.WellFormed) :
    (caughtVerdict dispatch p).WellFormed := by
  unfold caughtVerdict
  cases h : dispatch p with
  | error e => simp [Verdict.WellFormed]
  | ok v => exact hD v h

lemma entropy_clamp_wf (hef : List String) (fs : FileSys) (p : String) (n : ℕ) :
    0 ≤ (EntropyAnalyzer.analyzeCore hef fs p n).2 ∧
      (EntropyAnalyzer.analyzeCore hef fs p n).2 ≤ 1 ∧
      ((EntropyAnalyzer.analyzeCore hef fs p n).2 = 0 →
        (EntropyAnalyzer.analyzeCore hef fs p n).1 = false) := by
  unfold EntropyAnalyzer.analyzeCore
  split
  · norm_num
  · split
    · norm_num
    · set s := entropyScore hef ((fs.content p).take n) (extOf p) with hsdef
      refine ⟨le_min (by norm_num) (le_max_left 0 _), min_le_left _ _, ?_⟩
      intro h
      simp only at h
      have hmax : max (0 : ℚ) s = 0 := by
        rcases le_total 1 (max (0 : ℚ) s) with h1 | h1
        · rw [min_eq_left h1] at h; norm_num at h
        · rwa [min_eq_right h1] at h
      have hs : s ≤ 0 := by
        have := le_max_right (0 : ℚ) s
        rwa [hmax] at this
      simpa using decide_eq_false (not_lt.2 (le_trans hs (by norm_num)))

lemma pipeline_wf (fs : FileSys) (dispatch : String → Except String Verdict)
    (entropyOf : String → Bool × ℚ) (dur : ℚ) (p : String)
    (hD : ∀ v, dispatch p = .ok v → v.WellFormed)
    (hE : 0 ≤ (entropyOf p).2 ∧ (entropyOf p).2 ≤ 1 ∧
      ((entropyOf p).2 = 0 → (entropyOf p).1 = false)) :
    (DetectionPipeline.analyze_file fs dispatch entropyOf dur p).WellFormed := by
  have hv := caughtVerdict_wf dispatch p hD
  obtain ⟨hv0, hv1, hv2⟩ := hv
  obtain ⟨hE0, hE1, hE2⟩ := hE
  unfold DetectionPipeline.analyze_file
  split
  · exact ⟨le_refl 0, by norm_num, fun _ => ⟨rfl, rfl⟩⟩
  · split
    · split
      · refine ⟨hE0, hE1, fun h => ?_⟩
        exfalso
        simp only at h
        rename_i hgt
        rw [h] at hgt
        exact absurd hgt (not_lt.2 hv0)
      · exact ⟨hv0, hv1, fun h => hv2 h⟩
    · exact ⟨hv0, hv1, fun h => hv2 h⟩

lemma analyze_file_skip (fs : FileSys) (dispatch : String → Except String Verdict)
    (entropyOf : String → Bool × ℚ) (dur : ℚ) (p : String)
    (h : fs.isFile p = false ∨ fs.size p = 0) :
    DetectionPipeline.analyze_file fs dispatch entropyOf dur p =
      ⟨p, false, false, 0, dur⟩ := by
  unfold DetectionPipeline.analyze_file
  rw [if_pos h]

lemma analyze_file_of_ok (fs : FileSys) (dispatch : String → Except String Verdict)
    (entropyOf : String → Bool × ℚ) (dur : ℚ) (p : String)
    (h : ¬(fs.isFile p = false ∨ fs.size p = 0)) :
    DetectionPipeline.analyze_file fs dispatch entropyOf dur p =
      if (caughtVerdict dispatch p).confidence < 5 / 10 then
        if (entropyOf p).2 > (caughtVerdict dispatch p).confidence then
          ⟨p, (caughtVerdict dispatch p).password_protected,
            (entropyOf p).1, (entropyOf p).2, dur⟩
        else
          ⟨p, (caughtVerdict dispatch p).password_protected,
            (caughtVerdict dispatch p).encrypted,
            (caughtVerdict dispatch p).confidence, dur⟩
      else
        ⟨p, (caughtVerdict dispatch p).password_protected,
          (caughtVerdict dispatch p).encrypted,
          (caughtVerdict dispatch p).confidence, dur⟩ := by
  unfold DetectionPipeline.analyze_file
  rw [if_neg h]

lemma analyze_file_file (fs : FileSys) (dispatch : String → Except String Verdict)
    (entropyOf : String → Bool × ℚ) (dur : ℚ) (p : String) :
    (DetectionPipeline.analyze_file fs dispatch entropyOf dur p).file = p := by
  unfold DetectionPipeline.analyze_file
  split_ifs <;> rfl

lemma analyze_file_core_dur (fs : FileSys) (dispatch : String → Except String Verdict)
    (entropyOf : String → Bool × ℚ) (d d2 : ℚ) (p : String) :
    (DetectionPipeline.analyze_file fs dispatch entropyOf d p).core =
      (DetectionPipeline.analyze_file fs dispatch entropyOf d2 p).core := by
  unfold DetectionPipeline.analyze_file DetectionResult.core
  split_ifs <;> rfl

/-- C1: for every path, the DetectionResult returned by `analyze_file`
(and every element of the list returned by `scan_directory`) has
confidence in the closed interval [0, 1], and whenever confidence equals
0.0 both password_protected and encrypted are false — over every world
(every behaviour of the filesystem and of the external collaborators). -/
theorem C1_confidence_invariant (w : World) (dur : ℚ) (durs : String → ℚ)
    (files : List String) (file_path : String) :
    (PasswordProtectionDetector.analyze_file w dur file_path).WellFormed ∧
      ∀ r ∈ PasswordProtectionDetector.scan_directory w durs files, r.WellFormed := by
  constructor
  · unfold PasswordProtectionDetector.analyze_file
    exact pipeline_wf _ _ _ _ _ (detectorStep_wf w file_path)
      (entropy_clamp_wf HIGH_ENTROPY_FORMATS w.fs file_path 8192)
  · intro r hr
    unfold PasswordProtectionDetector.scan_directory at hr
    rw [List.mem_map] at hr
    obtain ⟨p, _, rfl⟩ := hr
    unfold PasswordProtectionDetector.analyze_file
    exact pipeline_wf _ _ _ _ _ (detectorStep_wf w p)
      (entropy_clamp_wf HIGH_ENTROPY_FORMATS w.fs p 8192)

/-- Witness for C1 at a concrete world: the single result of scanning the
one-element file list of an empty world satisfies the invariant. -/
theorem C1_confidence_invariant_witness :
    (⟨ "a", false, false, 0, 0 ⟩ : DetectionResult).WellFormed :=
  (C1_confidence_invariant emptyWorld 0 (fun _ => 0) [ "a" ] "a").2
    ⟨ "a", false, false, 0, 0 ⟩
    (by
      unfold PasswordProtectionDetector.scan_directory
        PasswordProtectionDetector.analyze_file
      rw [List.map_singleton,
        analyze_file_skip _ _ _ _ _ (Or.inl (rfl : emptyWorld.fs.isFile "a" = false))]
      exact List.mem_singleton.mpr rfl)

/-- C2: for a regular non-empty file the pipeline preserves the detector's
password_protected flag unconditionally; when the detector's confidence is
at least 0.5 the result does not depend on the entropy analyzer at all
(the fallback is skipped, in particular at confidence exactly 0.5); when
it is below 0.5 the entropy verdict's encrypted flag and confidence
replace the detector's exactly when the entropy confidence is strictly
greater. -/
theorem C2_entropy_arbitration (fs : FileSys)
    (dispatch : String → Except String Verdict) (entropyOf : String → Bool × ℚ)
    (dur : ℚ) (file_path : String)
    (hfile : fs.isFile file_path = true) (hsize : fs.size file_path ≠ 0) :
    (DetectionPipeline.analyze_file fs dispatch entropyOf dur file_path).password_protected
        = (caughtVerdict dispatch file_path).password_protected
    ∧ (¬ (caughtVerdict dispatch file_path).confidence < 5 / 10 →
        ∀ otherEntropy : String → Bool × ℚ,
          DetectionPipeline.analyze_file fs dispatch otherEntropy dur file_path
            = DetectionPipeline.analyze_file fs dispatch entropyOf dur file_path)
    ∧ ((caughtVerdict dispatch file_path).confidence < 5 / 10 →
        DetectionPipeline.analyze_file fs dispatch entropyOf dur file_path =
          if (entropyOf file_path).2 > (caughtVerdict dispatch file_path).confidence then
            ⟨file_path, (caughtVerdict dispatch file_path).password_protected,
              (entropyOf file_path).1, (entropyOf file_path).2, dur⟩
          else
            ⟨file_path, (caughtVerdict dispatch file_path).password_protected,
              (caughtVerdict dispatch file_path).encrypted,
              (caughtVerdict dispatch file_path).confidence, dur⟩) := by
  have hcond : ¬(fs.isFile file_path = false ∨ fs.size file_path = 0) := by
    simp [hfile, hsize]
  refine ⟨?_, ?_, ?_⟩
  · rw [analyze_file_of_ok fs dispatch entropyOf dur file_path hcond]
    split_ifs <;> rfl
  · intro hge otherEntropy
    rw [analyze_file_of_ok fs dispatch entropyOf dur file_path hcond,
      analyze_file_of_ok fs dispatch otherEntropy dur file_path hcond,
      if_neg hge, if_neg hge]
  · intro hlt
    rw [analyze_file_of_ok fs dispatch entropyOf dur file_path hcond, if_pos hlt]

/-- Witness for C2 at a concrete regular non-empty file whose detector
verdict is no-signal and whose entropy verdict is (true, 0.6). -/
theorem C2_entropy_arbitration_witness :
    (DetectionPipeline.analyze_file oneFileFS (fun _ => Except.ok ⟨false, false, 0⟩)
        (fun _ => (true, 3 / 5)) 0 "a").password_protected = false
    ∧ (¬ (0 : ℚ) < 5 / 10 →
        ∀ otherEntropy : String → Bool × ℚ,
          DetectionPipeline.analyze_file oneFileFS (fun _ => Except.ok ⟨false, false, 0⟩)
              otherEntropy 0 "a"
            = DetectionPipeline.analyze_file oneFileFS
                (fun _ => Except.ok ⟨false, false, 0⟩) (fun _ => (true, 3 / 5)) 0 "a")
    ∧ ((0 : ℚ) < 5 / 10 →
        DetectionPipeline.analyze_file oneFileFS (fun _ => Except.ok ⟨false, false, 0⟩)
            (fun _ => (true, 3 / 5)) 0 "a" =
          if (3 / 5 : ℚ) > 0 then ⟨ "a", false, true, 3 / 5, 0 ⟩
          else ⟨ "a", false, false, 0, 0 ⟩) :=
  C2_entropy_arbitration oneFileFS (fun _ => Except.ok ⟨false, false, 0⟩)
    (fun _ => (true, 3 / 5)) 0 "a" rfl (by decide)

/-- C3: over the same immutable world, a sequential-mode scan and a
concurrent-mode scan of the same directory walk produce result lists whose
(file, password_protected, encrypted, confidence) projections are equal as
multisets, for any two per-file duration oracles (only duration and order
may differ; the concurrent `asyncio.gather` in fact preserves task order,
and every per-file task is a pure function of the immutable world). -/
theorem C3_sequential_concurrent_agree (fs : FileSys)
    (dispatch : String → Except String Verdict) (entropyOf : String → Bool × ℚ)
    (durs1 durs2 : String → ℚ) (files : List String) :
    ((SynchronousPasswordProtectionDetector.scan_directory fs dispatch entropyOf
        durs1 files).map DetectionResult.core : Multiset (String × Bool × Bool × ℚ))
      = ((ConcurrentPasswordProtectionDetector.scan_directory fs dispatch entropyOf
        durs2 files).map DetectionResult.core) := by
  have hlist :
      (SynchronousPasswordProtectionDetector.scan_directory fs dispatch entropyOf
        durs1 files).map DetectionResult.core
      = (ConcurrentPasswordProtectionDetector.scan_directory fs dispatch entropyOf
        durs2 files).map DetectionResult.core := by
    unfold SynchronousPasswordProtectionDetector.scan_directory
      ConcurrentPasswordProtectionDetector.scan_directory
    rw [List.map_map, List.map_map]
    exact List.map_congr_left (fun p _ =>
      analyze_file_core_dur fs dispatch entropyOf (durs1 p) (durs2 p) p)
  rw [hlist]

/-- C4: a fault raised inside one file's dispatch step (type resolution or
format handler) is caught by `analyze_file`: the detector verdict becomes
the no-signal (false, false, 0.0) — exactly as if the dispatch had
returned no-signal — it never escapes to the caller (`analyze_file` is
total), and a directory scan still reports every walked file. -/
theorem C4_fault_isolation (w : World) (dur : ℚ) (durs : String → ℚ)
    (p msg : String) (files : List String)
    (hcrash : w.crash p = some msg) :
    detectorStep w p = .error msg
    ∧ caughtVerdict (detectorStep w) p = ⟨false, false, 0⟩
    ∧ PasswordProtectionDetector.analyze_file w dur p
        = DetectionPipeline.analyze_file w.fs (fun _ => Except.ok ⟨false, false, 0⟩)
            (fun q => EntropyAnalyzer.analyze w.fs q 8192) dur p
    ∧ (PasswordProtectionDetector.scan_directory w durs files).map
        DetectionResult.file = files := by
  have h1 : detectorStep w p = .error msg := by
    unfold detectorStep
    rw [hcrash]
  have h2 : caughtVerdict (detectorStep w) p = ⟨false, false, 0⟩ := by
    unfold caughtVerdict
    rw [h1]
  have h2b : caughtVerdict (fun _ => Except.ok (⟨false, false, 0⟩ : Verdict)) p
      = ⟨false, false, 0⟩ := rfl
  refine ⟨h1, h2, ?_, ?_⟩
  · unfold PasswordProtectionDetector.analyze_file DetectionPipeline.analyze_file
    rw [h2, h2b]
  · unfold PasswordProtectionDetector.scan_directory
      PasswordProtectionDetector.analyze_file
    rw [List.map_map]
    have : (DetectionResult.file ∘ fun q =>
        DetectionPipeline.analyze_file w.fs (detectorStep w)
          (fun r => EntropyAnalyzer.analyze w.fs r 8192) (durs q) q) = id := by
      funext q
      exact analyze_file_file w.fs (detectorStep w) _ (durs q) q
    rw [this, List.map_id]

/-- Witness for C4 at a concrete crashing world. -/
theorem C4_fault_isolation_witness :
    detectorStep crashWorld "a" = .error "boom"
    ∧ caughtVerdict (detectorStep crashWorld) "a" = ⟨false, false, 0⟩
    ∧ PasswordProtectionDetector.analyze_file crashWorld 0 "a"
        = DetectionPipeline.analyze_file crashWorld.fs
            (fun _ => Except.ok ⟨false, false, 0⟩)
            (fun q => EntropyAnalyzer.analyze crashWorld.fs q 8192) 0 "a"
    ∧ (PasswordProtectionDetector.scan_directory crashWorld (fun _ => 0)
        [ "a" ]).map DetectionResult.file = [ "a" ] :=
  C4_fault_isolation crashWorld 0 (fun _ => 0) "a" "boom" [ "a" ] rfl

/-- C5: for a path that is not a regular file, or a regular file of size
zero, `analyze_file` returns exactly (false, false, 0.0) with duration
equal to the measured elapsed time (nonnegative, the clock being
monotone), for every dispatch step and every entropy analyzer — so neither
the type resolver, nor any format handler, nor the entropy analyzer is
consulted. -/
theorem C5_skip_invalid_files (fs : FileSys)
    (dispatch : String → Except String Verdict) (entropyOf : String → Bool × ℚ)
    (dur : ℚ) (p : String)
    (h : fs.isFile p = false ∨ fs.size p = 0) (hdur : 0 ≤ dur) :
    DetectionPipeline.analyze_file fs dispatch entropyOf dur p
        = ⟨p, false, false, 0, dur⟩
    ∧ 0 ≤ (DetectionPipeline.analyze_file fs dispatch entropyOf dur p).duration := by
  have he := analyze_file_skip fs dispatch entropyOf dur p h
  exact ⟨he, by rw [he]; exact hdur⟩

/-- Witness for C5 at a concrete nonexistent path. -/
theorem C5_skip_invalid_files_witness :
    DetectionPipeline.analyze_file emptyFS (fun _ => Except.ok ⟨false, false, 0⟩)
        (fun _ => (false, 0)) 0 "nope" = ⟨ "nope", false, false, 0, 0 ⟩
    ∧ 0 ≤ (DetectionPipeline.analyze_file emptyFS
        (fun _ => Except.ok ⟨false, false, 0⟩) (fun _ => (false, 0)) 0
        "nope").duration :=
  C5_skip_invalid_files emptyFS (fun _ => Except.ok ⟨false, false, 0⟩)
    (fun _ => (false, 0)) 0 "nope" (Or.inl rfl) (le_refl 0)

/-- C6: the v2withAsync OfficeOpenXML detector returns (true, true, 1.0)
for a password-protected file (encrypted, empty-key decryption rejected),
(false, true, 0.8) for a file encrypted but decryptable with the empty
key, (false, false, 0.0) when msoffcrypto is unavailable or the file is
unreadable by both probes, (true, true, 1.0) when the ZIP fallback finds a
package member named "EncryptedPackage", and (true, false, 0.9) when the
fallback finds a DocumentProtection marker in docProps/core.xml. -/
theorem C6_ooxml_verdicts (env : OoxmlV2Env) :
    (env.available = true → env.probe = some true → env.loadKey = .invalidKey →
      OfficeOpenXMLHandlerV2.is_encrypted env = ⟨true, true, 1⟩)
    ∧ (env.available = true → env.probe = some true → env.loadKey = .ok →
      OfficeOpenXMLHandlerV2.is_encrypted env = ⟨false, true, 8 / 10⟩)
    ∧ (env.available = false →
      OfficeOpenXMLHandlerV2.is_encrypted env = ⟨false, false, 0⟩)
    ∧ (env.available = true → env.probe = none → env.zipNames = none →
      OfficeOpenXMLHandlerV2.is_encrypted env = ⟨false, false, 0⟩)
    ∧ (∀ ns, env.available = true → env.probe = none → env.zipNames = some ns →
      "EncryptedPackage" ∈ ns →
      OfficeOpenXMLHandlerV2.is_encrypted env = ⟨true, true, 1⟩)
    ∧ (∀ ns core_data, env.available = true → env.probe = none →
      env.zipNames = some ns → "EncryptedPackage" ∉ ns →
      "docProps/core.xml" ∈ ns → env.core = some core_data →
      hasSubstr "DocumentProtection" core_data = true →
      OfficeOpenXMLHandlerV2.is_encrypted env = ⟨true, false, 9 / 10⟩) := by
  refine ⟨?_, ?_, ?_, ?_, ?_, ?_⟩
  · intro ha hp hk
    simp [OfficeOpenXMLHandlerV2.is_encrypted, ha, hp, hk]
  · intro ha hp hk
    simp [OfficeOpenXMLHandlerV2.is_encrypted, ha, hp, hk]
  · intro ha
    simp [OfficeOpenXMLHandlerV2.is_encrypted, ha]
  · intro ha hp hz
    simp [OfficeOpenXMLHandlerV2.is_encrypted, OfficeOpenXMLHandlerV2.fallback,
      ha, hp, hz]
  · intro ns ha hp hz hmem
    simp [OfficeOpenXMLHandlerV2.is_encrypted, OfficeOpenXMLHandlerV2.fallback,
      ha, hp, hz, hmem]
  · intro ns core_data ha hp hz hnot hmem hcore hsub
    simp [OfficeOpenXMLHandlerV2.is_encrypted, OfficeOpenXMLHandlerV2.fallback,
      ha, hp, hz, hnot, hmem, hcore, hsub]

/-- Witness for C6 at concrete environments for each of the five claimed
outcomes. -/
theorem C6_ooxml_verdicts_witness :
    OfficeOpenXMLHandlerV2.is_encrypted ⟨true, some true, .invalidKey, none, none⟩
        = ⟨true, true, 1⟩
    ∧ OfficeOpenXMLHandlerV2.is_encrypted ⟨true, some true, .ok, none, none⟩
        = ⟨false, true, 8 / 10⟩
    ∧ OfficeOpenXMLHandlerV2.is_encrypted ⟨false, none, .ok, none, none⟩
        = ⟨false, false, 0⟩
    ∧ OfficeOpenXMLHandlerV2.is_encrypted ⟨true, none, .ok, none, none⟩
        = ⟨false, false, 0⟩
    ∧ OfficeOpenXMLHandlerV2.is_encrypted
        ⟨true, none, .ok, some [ "EncryptedPackage" ], none⟩ = ⟨true, true, 1⟩
    ∧ OfficeOpenXMLHandlerV2.is_encrypted
        ⟨true, none, .ok, some [ "docProps/core.xml" ],
          some "a DocumentProtection marker"⟩ = ⟨true, false, 9 / 10⟩ :=
  ⟨(C6_ooxml_verdicts _).1 rfl rfl rfl,
    (C6_ooxml_verdicts _).2.1 rfl rfl rfl,
    (C6_ooxml_verdicts _).2.2.1 rfl,
    (C6_ooxml_verdicts _).2.2.2.1 rfl rfl rfl,
    (C6_ooxml_verdicts _).2.2.2.2.1 _ rfl rfl rfl (by simp),
    (C6_ooxml_verdicts _).2.2.2.2.2 _ _ rfl rfl rfl (by simp) (by simp) rfl
      (by decide)⟩

/-- C9: a ZIP archive whose header list contains an entry with the
encryption flag bit (`flag_bits & 0x1`) set makes the ZIP handler return
(true, true, 1.0), and `analyze_file` keeps that verdict unchanged for
every entropy analyzer (at confidence 1.0 the fallback never runs). -/
theorem C9_zip_flagged_entry (w : World) (dur : ℚ) (p : String) (flags : List ℕ)
    (hfile : w.fs.isFile p = true) (hsize : w.fs.size p ≠ 0)
    (hcrash : w.crash p = none)
    (htype : FileTypeDetector.detect w.magika p = "zip")
    (hzip : (w.zip p).openResult = .ok flags)
    (hflag : flags.any (fun f => f % 2 = 1) = true) :
    ZIPHandler.is_encrypted (w.zip p) = ⟨true, true, 1⟩
    ∧ ∀ entropyOf : String → Bool × ℚ,
        DetectionPipeline.analyze_file w.fs (detectorStep w) entropyOf dur p
          = ⟨p, true, true, 1, dur⟩ := by
  have hv : ZIPHandler.is_encrypted (w.zip p) = ⟨true, true, 1⟩ := by
    have hex : ∃ x ∈ flags, x % 2 = 1 := by simpa using hflag
    unfold ZIPHandler.is_encrypted
    rw [hzip]
    simp [hex]
  have hstep : detectorStep w p = .ok ⟨true, true, 1⟩ := by
    unfold detectorStep
    rw [hcrash, htype]
    simp [handlerVerdict, hv]
  have hc : caughtVerdict (detectorStep w) p = ⟨true, true, 1⟩ := by
    unfold caughtVerdict
    rw [hstep]
  refine ⟨hv, fun entropyOf => ?_⟩
  rw [analyze_file_of_ok w.fs (detectorStep w) entropyOf dur p
    (by simp [hfile, hsize]), hc]
  norm_num

/-- Witness for C9 at a concrete world whose ZIP collaborator reports a
single entry with flag bits 1. -/
theorem C9_zip_flagged_entry_witness :
    ZIPHandler.is_encrypted (zipWorld.zip "a.zip") = ⟨true, true, 1⟩
    ∧ DetectionPipeline.analyze_file zipWorld.fs (detectorStep zipWorld)
        (fun _ => (false, 0)) 0 "a.zip" = ⟨ "a.zip", true, true, 1, 0 ⟩ :=
  ⟨(C9_zip_flagged_entry zipWorld 0 "a.zip" [ 1 ] rfl (by decide) rfl
      (by decide) rfl (by decide)).1,
    (C9_zip_flagged_entry zipWorld 0 "a.zip" [ 1 ] rfl (by decide) rfl
      (by decide) rfl (by decide)).2 (fun _ => (false, 0))⟩


lemma clamp_gt_threshold (s : ℚ) :
    (decide (s > 7 / 10) = true) ↔ min 1 (max 0 s) > 7 / 10 := by
  simp only [gt_iff_lt, lt_min_iff, lt_max_iff, decide_eq_true_eq]
  norm_num

lemma analyzeCore_encrypted_iff (hef : List String) (fs : FileSys) (p : String)
    (n : ℕ) :
    (EntropyAnalyzer.analyzeCore hef fs p n).1 = true ↔
      (EntropyAnalyzer.analyzeCore hef fs p n).2 > 7 / 10 := by
  unfold EntropyAnalyzer.analyzeCore
  split
  · norm_num
  · split
    · norm_num
    · exact clamp_gt_threshold _

/-- C10: for every input, the pair returned by `EntropyAnalyzer.analyze`
(in both versions of entropy.py) satisfies: is_encrypted is true exactly
when the returned confidence is strictly above 0.7 — an encrypted verdict
always carries confidence above 0.7 and a not-encrypted verdict never
does. -/
theorem C10_encrypted_iff_confidence (fs : FileSys) (p : String) (n : ℕ) :
    ((EntropyAnalyzer.analyze fs p n).1 = true ↔
      (EntropyAnalyzer.analyze fs p n).2 > 7 / 10)
    ∧ ((EntropyAnalyzer.analyzeUpdated fs p n).1 = true ↔
      (EntropyAnalyzer.analyzeUpdated fs p n).2 > 7 / 10) :=
  ⟨analyzeCore_encrypted_iff HIGH_ENTROPY_FORMATS fs p n,
    analyzeCore_encrypted_iff HIGH_ENTROPY_FORMATS_updated fs p n⟩

lemma count_replicate_real (n : ℕ) (b i : Byte) :
    ((List.replicate n b).count i : ℝ) = if i = b then (n : ℝ) else 0 := by
  rw [List.count_replicate]
  by_cases h : i = b
  · subst h; simp
  · have hb : (b == i) = false := beq_eq_false_iff_ne.mpr (fun hh => h hh.symm)
    rw [hb]
    simp [h]

lemma sum_fin256_ite (b : Fin 256) (X Y : ℝ) :
    ∑ i : Fin 256, (if i = b then X else Y) = X + 255 * Y := by
  have h : ∀ i : Fin 256,
      (if i = b then X else Y) = (if i = b then X - Y else 0) + Y := by
    intro i; split <;> ring
  rw [Finset.sum_congr rfl (fun i _ => h i), Finset.sum_add_distrib,
    Finset.sum_ite_eq' Finset.univ b (fun _ => X - Y), Finset.sum_const,
    Finset.card_univ, Fintype.card_fin, if_pos (Finset.mem_univ b), nsmul_eq_mul]
  push_cast
  ring

lemma shannonEntropy_replicate (n : ℕ) (b : Byte) (hn : n ≠ 0) :
    shannonEntropy (List.replicate n b) = 0 := by
  have hcast : ((n : ℕ) : ℝ) ≠ 0 := Nat.cast_ne_zero.mpr hn
  unfold shannonEntropy
  rw [List.toFinset_replicate_of_ne_zero hn, Finset.sum_singleton]
  have hcount : ((List.replicate n b).count b : ℝ) = n := by
    rw [List.count_replicate]; simp
  rw [hcount, List.length_replicate, div_self hcast, Real.logb_one]
  ring

lemma freqMean_replicate (n : ℕ) (b : Byte) :
    freqMean (List.replicate n b) = (n : ℝ) / 256 := by
  unfold freqMean
  rw [Finset.sum_congr rfl (fun i _ => count_replicate_real n b i), sum_fin256_ite]
  ring

lemma freqVar_replicate (n : ℕ) (b : Byte) :
    freqVar (List.replicate n b) = 255 * ((n : ℝ) / 256) ^ 2 := by
  unfold freqVar
  rw [freqMean_replicate]
  have h : ∀ i : Fin 256,
      (((List.replicate n b).count i : ℝ) - (n : ℝ) / 256) ^ 2 =
        if i = b then ((n : ℝ) - (n : ℝ) / 256) ^ 2 else ((0 : ℝ) - (n : ℝ) / 256) ^ 2 := by
    intro i
    rw [count_replicate_real]
    by_cases hib : i = b <;> simp [hib]
  rw [Finset.sum_congr rfl (fun i _ => h i), sum_fin256_ite]
  ring

lemma sqrt_freqVar_replicate (n : ℕ) (b : Byte) :
    Real.sqrt (freqVar (List.replicate n b)) = Real.sqrt 255 * ((n : ℝ) / 256) := by
  rw [freqVar_replicate, Real.sqrt_mul (by norm_num : (0 : ℝ) ≤ 255),
    Real.sqrt_sq (by positivity)]

lemma freqSkew_replicate (n : ℕ) (b : Byte) :
    freqSkew (List.replicate n b) =
      ((((n : ℝ) - (n : ℝ) / 256) /
          (Real.sqrt 255 * ((n : ℝ) / 256) + 1 / 100000000)) ^ 3
        + 255 * (((0 : ℝ) - (n : ℝ) / 256) /
          (Real.sqrt 255 * ((n : ℝ) / 256) + 1 / 100000000)) ^ 3) / 256 := by
  unfold freqSkew
  rw [freqMean_replicate, sqrt_freqVar_replicate]
  have h : ∀ i : Fin 256,
      ((((List.replicate n b).count i : ℝ) - (n : ℝ) / 256) /
          (Real.sqrt 255 * ((n : ℝ) / 256) + 1 / 100000000)) ^ 3 =
        if i = b then
          (((n : ℝ) - (n : ℝ) / 256) /
            (Real.sqrt 255 * ((n : ℝ) / 256) + 1 / 100000000)) ^ 3
        else
          (((0 : ℝ) - (n : ℝ) / 256) /
            (Real.sqrt 255 * ((n : ℝ) / 256) + 1 / 100000000)) ^ 3 := by
    intro i
    rw [count_replicate_real]
    by_cases hib : i = b <;> simp [hib]
  rw [Finset.sum_congr rfl (fun i _ => h i), sum_fin256_ite]

lemma sqrt_255_le : Real.sqrt 255 ≤ 16 := by
  have h : Real.sqrt 255 ≤ Real.sqrt 256 := Real.sqrt_le_sqrt (by norm_num)
  have h2 : Real.sqrt 256 = 16 := by
    rw [show (256 : ℝ) = 16 ^ 2 by norm_num, Real.sqrt_sq (by norm_num)]
  linarith

lemma freqSkew_replicate_large (n : ℕ) (b : Byte) (hn : 1 ≤ n) :
    3 / 10 ≤ freqSkew (List.replicate n b) := by
  rw [freqSkew_replicate]
  have hncast : (1 : ℝ) ≤ (n : ℝ) := by exact_mod_cast hn
  set m : ℝ := (n : ℝ) / 256 with hm
  have hm1 : 1 / 256 ≤ m := by rw [hm]; linarith
  have hm0 : 0 < m := lt_of_lt_of_le (by norm_num) hm1
  have hs0 : 0 ≤ Real.sqrt 255 := Real.sqrt_nonneg _
  set r : ℝ := Real.sqrt 255 * m + 1 / 100000000 with hr
  clear_value m r
  have hr0 : 0 < r := by
    rw [hr]
    have : 0 ≤ Real.sqrt 255 * m := mul_nonneg hs0 hm0.le
    linarith
  have hrle : r ≤ 17 * m := by
    rw [hr]
    have h1 : Real.sqrt 255 * m ≤ 16 * m :=
      mul_le_mul_of_nonneg_right sqrt_255_le hm0.le
    have h2 : (1 : ℝ) / 100000000 ≤ m := le_trans (by norm_num) hm1
    linarith
  have hn256 : (n : ℝ) = 256 * m := by rw [hm]; ring
  have ht : 1 / 17 ≤ m / r := by
    rw [le_div_iff₀ hr0]
    linarith
  have ht0 : 0 < m / r := div_pos hm0 hr0
  have ht3 : (1 / 17 : ℝ) ^ 3 ≤ (m / r) ^ 3 := by
    apply pow_le_pow_left₀ (by norm_num) ht
  have hX : ((n : ℝ) - m) / r = 255 * (m / r) := by
    rw [hn256]; ring
  have hY : ((0 : ℝ) - m) / r = -(m / r) := by
    ring
  rw [hX, hY]
  have hexpand : ((255 * (m / r)) ^ 3 + 255 * (-(m / r)) ^ 3) / 256 =
      64770 * (m / r) ^ 3 := by ring
  rw [hexpand]
  nlinarith [ht3]

lemma nullByteFraction_replicate (n : ℕ) (b : Byte) (hn : n ≠ 0) :
    nullByteFraction (List.replicate n b) = if b = 0 then 1 else 0 := by
  have hcast : ((n : ℕ) : ℚ) ≠ 0 := Nat.cast_ne_zero.mpr hn
  unfold nullByteFraction
  rw [List.count_replicate, List.length_replicate]
  by_cases h : b = 0
  · simp [h, div_self hcast]
  · have hb : (b == (0 : Byte)) = false := beq_eq_false_iff_ne.mpr h
    rw [hb]
    simp [h]

lemma asciiFraction_replicate (n : ℕ) (b : Byte) (hn : n ≠ 0) :
    asciiFraction (List.replicate n b) =
      if 32 ≤ b.val ∧ b.val ≤ 126 then 1 else 0 := by
  have hcast : ((n : ℕ) : ℚ) ≠ 0 := Nat.cast_ne_zero.mpr hn
  unfold asciiFraction
  rw [List.countP_replicate, List.length_replicate]
  by_cases h : 32 ≤ b.val ∧ b.val ≤ 126
  · rw [if_pos (by simp [h.1, h.2]), if_pos h]
    exact div_self hcast
  · rw [if_neg (by simpa using h), if_neg h]
    simp

lemma highByteFraction_replicate (n : ℕ) (b : Byte) (hn : n ≠ 0) :
    highByteFraction (List.replicate n b) = if 127 < b.val then 1 else 0 := by
  have hcast : ((n : ℕ) : ℚ) ≠ 0 := Nat.cast_ne_zero.mpr hn
  unfold highByteFraction
  rw [List.countP_replicate, List.length_replicate]
  by_cases h : 127 < b.val
  · rw [if_pos (by simpa using h), if_pos h]
    exact div_self hcast
  · rw [if_neg (by simpa using h), if_neg h]
    simp

lemma entropyScore_replicate (hef : List String) (n : ℕ) (b : Byte) (p : String)
    (hn : 1 ≤ n) (hext : extOf p ∉ ENC_EXT) :
    entropyScore hef (List.replicate n b) (extOf p) =
      (if b ≠ 0 then 1 / 10 else 0)
        + (if ¬(32 ≤ b.val ∧ b.val ≤ 126) then 1 / 10 else 0)
        + (if 127 < b.val then 1 / 10 else 0) := by
  have hn0 : n ≠ 0 := by omega
  have hskew := freqSkew_replicate_large n b hn
  unfold entropyScore highEntropyAdjust
  rw [shannonEntropy_replicate n b hn0]
  rw [if_neg (by norm_num), if_neg (by norm_num), if_neg (by norm_num),
    if_neg (not_lt.mpr (le_trans hskew (le_abs_self _))),
    nullByteFraction_replicate n b hn0, asciiFraction_replicate n b hn0,
    highByteFraction_replicate n b hn0,
    if_neg (fun hc => by norm_num at hc : ¬(extOf p ∈ hef ∧ (0 : ℝ) > 72 / 10)),
    if_neg hext]
  by_cases h0 : b = 0 <;> by_cases hA : 32 ≤ b.val ∧ b.val ≤ 126 <;>
    by_cases hH : 127 < b.val <;> simp [h0, hA, hH] <;> norm_num

lemma analyzeCore_replicate (hef : List String) (fs : FileSys) (p : String)
    (sample n : ℕ) (b : Byte)
    (hr : fs.readable p = true)
    (hc : (fs.content p).take sample = List.replicate n b)
    (hn : 1 ≤ n) (hext : extOf p ∉ ENC_EXT) :
    EntropyAnalyzer.analyzeCore hef fs p sample =
      (false, (if b ≠ 0 then 1 / 10 else 0)
        + (if ¬(32 ≤ b.val ∧ b.val ≤ 126) then 1 / 10 else 0)
        + (if 127 < b.val then 1 / 10 else 0)) := by
  have hs := entropyScore_replicate hef n b p hn hext
  have hnonnil : List.replicate n b ≠ [] := by
    simp only [ne_eq, List.replicate_eq_nil_iff]
    omega
  unfold EntropyAnalyzer.analyzeCore
  rw [hc, hs, if_neg (by simp [hr]), if_neg hnonnil]
  have hbounds : 0 ≤ ((if b ≠ 0 then (1 : ℚ) / 10 else 0)
      + (if ¬(32 ≤ b.val ∧ b.val ≤ 126) then 1 / 10 else 0)
      + (if 127 < b.val then 1 / 10 else 0))
    ∧ ((if b ≠ 0 then (1 : ℚ) / 10 else 0)
      + (if ¬(32 ≤ b.val ∧ b.val ≤ 126) then 1 / 10 else 0)
      + (if 127 < b.val then 1 / 10 else 0)) ≤ 3 / 10 := by
    constructor <;> (split_ifs <;> norm_num)
  rw [Prod.mk.injEq]
  constructor
  · simp only [decide_eq_false_iff_not, not_lt]
    linarith [hbounds.2]
  · rw [max_eq_right hbounds.1, min_eq_right (le_trans hbounds.2 (by norm_num))]

/-- C7 counterexample: for the concrete readable file "sample" whose 8192
sampled bytes are all 0xFF (and whose extensionless name earns no
extension bonus), the Shannon entropy is 0 as the claim states, but
`EntropyAnalyzer.analyze` returns confidence 0.3, not 0.0: the three
byte-distribution conditions (no null bytes, no ASCII bytes, all bytes
above 127) still contribute 0.1 each. -/
theorem C7_constant_sample_counterexample :
    shannonEntropy (List.replicate 8192 (255 : Byte)) = 0
    ∧ EntropyAnalyzer.analyze ffFS "sample" 8192 = (false, 3 / 10)
    ∧ (3 / 10 : ℚ) ≠ 0 := by
  refine ⟨shannonEntropy_replicate 8192 255 (by norm_num), ?_, by norm_num⟩
  have hc : (ffFS.content "sample").take 8192 = List.replicate 8192 (255 : Byte) := by
    show (List.replicate 8192 (255 : Byte)).take 8192 = _
    rw [List.take_replicate, min_self]
  have h := analyzeCore_replicate HIGH_ENTROPY_FORMATS ffFS "sample" 8192 8192
    (255 : Byte) rfl hc (by norm_num) (by decide)
  unfold EntropyAnalyzer.analyze
  rw [h, if_pos (by decide : (255 : Byte) ≠ 0),
    if_pos (by decide : ¬(32 ≤ (255 : Byte).val ∧ (255 : Byte).val ≤ 126)),
    if_pos (by decide : 127 < (255 : Byte).val)]
  norm_num

/-- C7 amended: for every readable sample of `sampleSize` bytes in which all
byte values are identical, `EntropyAnalyzer.analyze` computes Shannon
entropy 0, and (for an extension outside `ENC_EXT`) neither the entropy
conditions nor the skew condition contributes — but the confidence is not
0.0: it equals the sum of the byte-distribution bonuses, 0.1 when the byte
is nonzero plus 0.1 when the byte is outside [32, 126] plus 0.1 when the
byte exceeds 127, hence always at least 0.1, and the verdict is still
not-encrypted. -/
theorem C7_constant_sample (fs : FileSys) (p : String) (sample n : ℕ) (b : Byte)
    (hr : fs.readable p = true)
    (hc : (fs.content p).take sample = List.replicate n b)
    (hn : 1 ≤ n) (hext : extOf p ∉ ENC_EXT) :
    shannonEntropy (List.replicate n b) = 0
    ∧ EntropyAnalyzer.analyze fs p sample =
        (false, (if b ≠ 0 then 1 / 10 else 0)
          + (if ¬(32 ≤ b.val ∧ b.val ≤ 126) then 1 / 10 else 0)
          + (if 127 < b.val then 1 / 10 else 0))
    ∧ 1 / 10 ≤ (EntropyAnalyzer.analyze fs p sample).2 := by
  have h := analyzeCore_replicate HIGH_ENTROPY_FORMATS fs p sample n b hr hc hn hext
  have h2 : EntropyAnalyzer.analyze fs p sample =
      (false, (if b ≠ 0 then 1 / 10 else 0)
        + (if ¬(32 ≤ b.val ∧ b.val ≤ 126) then 1 / 10 else 0)
        + (if 127 < b.val then 1 / 10 else 0)) := by
    unfold EntropyAnalyzer.analyze
    exact h
  refine ⟨shannonEntropy_replicate n b (by omega), h2, ?_⟩
  rw [h2]
  by_cases h0 : b = 0
  · subst h0
    rw [if_neg (by decide : ¬((0 : Byte) ≠ 0)),
      if_pos (by decide : ¬(32 ≤ (0 : Byte).val ∧ (0 : Byte).val ≤ 126)),
      if_neg (by decide : ¬(127 < (0 : Byte).val))]
    norm_num
  · rw [if_pos h0]
    split_ifs <;> norm_num

/-- Witness for the amended C7 at the concrete all-0xFF sample. -/
theorem C7_constant_sample_witness :
    shannonEntropy (List.replicate 8192 (255 : Byte)) = 0
    ∧ EntropyAnalyzer.analyze ffFS "sample" 8192 =
        (false, (if (255 : Byte) ≠ 0 then 1 / 10 else 0)
          + (if ¬(32 ≤ (255 : Byte).val ∧ (255 : Byte).val ≤ 126) then 1 / 10 else 0)
          + (if 127 < (255 : Byte).val then 1 / 10 else 0))
    ∧ 1 / 10 ≤ (EntropyAnalyzer.analyze ffFS "sample" 8192).2 :=
  C7_constant_sample ffFS "sample" 8192 8192 (255 : Byte) rfl
    (by
      show (List.replicate 8192 (255 : Byte)).take 8192 = _
      rw [List.take_replicate, min_self])
    (by norm_num) (by decide)

/-- C8 counterexample: in the top-level src/entropy.py, `HIGH_ENTROPY_FORMATS`
holds only the four extensions .docx/.xlsx/.pptx/.ods, so at the concrete
input ".odt" with entropy 8 (> 7.2) the −0.2 deduction of
`EntropyAnalyzer.analyze` is NOT applied even though ".odt" is among the
nine extensions the claim lists: "applied exactly when the extension is
one of the nine and entropy > 7.2" fails there. -/
theorem C8_deduction_counterexample :
    highEntropyAdjust HIGH_ENTROPY_FORMATS ".odt" 8 = 0
    ∧ ".odt" ∈ HIGH_ENTROPY_FORMATS_updated
    ∧ (8 : ℝ) > 72 / 10
    ∧ ¬(highEntropyAdjust HIGH_ENTROPY_FORMATS ".odt" 8 = -(2 / 10) ↔
        (".odt" ∈ HIGH_ENTROPY_FORMATS_updated ∧ (8 : ℝ) > 72 / 10)) := by
  have h0 : highEntropyAdjust HIGH_ENTROPY_FORMATS ".odt" 8 = 0 := by
    unfold highEntropyAdjust
    rw [if_neg]
    rintro ⟨hmem, _⟩
    revert hmem
    decide
  refine ⟨h0, by decide, by norm_num, fun hiff => ?_⟩
  have := hiff.mpr ⟨by decide, by norm_num⟩
  rw [h0] at this
  norm_num at this

/-- C8 amended: the −0.2 deduction of `EntropyAnalyzer.analyze` is applied
exactly when the lowercased extension lies in the respective version's
`HIGH_ENTROPY_FORMATS` set and the computed entropy exceeds 7.2 — the
nine-extension set {.docx,.xlsx,.pptx,.ods,.odt,.odp,.odg,.odf,.odm} in
the updated package's entropy.py, but only the four-extension set
{.docx,.xlsx,.pptx,.ods} in the top-level src/entropy.py; in every other
case the adjustment is 0. -/
theorem C8_deduction_condition (ext : String) (H : ℝ) :
    (highEntropyAdjust HIGH_ENTROPY_FORMATS_updated ext H = -(2 / 10) ↔
      (ext ∈ HIGH_ENTROPY_FORMATS_updated ∧ H > 72 / 10))
    ∧ (highEntropyAdjust HIGH_ENTROPY_FORMATS ext H = -(2 / 10) ↔
      (ext ∈ HIGH_ENTROPY_FORMATS ∧ H > 72 / 10))
    ∧ (highEntropyAdjust HIGH_ENTROPY_FORMATS_updated ext H = -(2 / 10)
        ∨ highEntropyAdjust HIGH_ENTROPY_FORMATS_updated ext H = 0)
    ∧ (highEntropyAdjust HIGH_ENTROPY_FORMATS ext H = -(2 / 10)
        ∨ highEntropyAdjust HIGH_ENTROPY_FORMATS ext H = 0) := by
  refine ⟨?_, ?_, ?_, ?_⟩ <;> unfold highEntropyAdjust <;> split_ifs with h <;>
    simp [h]
